import Mathlib

/-!
Shallow embedding of the QLess campus facility queue/check-in application
(`src/auth/authentication.py`, `src/services/qr_service.py`,
`src/services/queue_service.py`, `src/services/facility_service.py`),
together with theorems settling the frozen claims about it.

Strings from the Python code are modelled as Lean `String` / `List Char`;
Python integers as `Int` (counts may in principle go negative, so we do not
bake non-negativity into the type); Python `None`-able values as `Option`;
the Firebase key/value store as association lists keyed by strings, with
dict insertion-order iteration semantics preserved; `datetime.now()` as an
explicit `now : Nat` argument threaded into every operation.  The SHA-256
digest from `hashlib` (an external library) is treated as an opaque
collaborator: an arbitrary `hashFn : String → String` parameter.
-/

namespace QLess

instance {ε α : Type} [DecidableEq ε] [DecidableEq α] : DecidableEq (Except ε α) := fun x y =>
  match x, y with
  | .ok a, .ok b =>
    if h : a = b then .isTrue (h ▸ rfl) else .isFalse (fun hc => h (Except.ok.inj hc))
  | .error a, .error b =>
    if h : a = b then .isTrue (h ▸ rfl) else .isFalse (fun hc => h (Except.error.inj hc))
  | .ok _, .error _ => .isFalse (fun hc => Except.noConfusion hc)
  | .error _, .ok _ => .isFalse (fun hc => Except.noConfusion hc)

/-! ### Association-list primitives modelling Python dict / Firebase nodes

`lookupA` finds the value at a key (first occurrence), `setA` overwrites in
place or appends (Python dict insertion-order update semantics; Firebase
`.set()` on a child path), `removeA` deletes a key (Firebase `.delete()`).
-/

def lookupA {α : Type} (k : String) : List (String × α) → Option α
  | [] => none
  | (k', v) :: rest => if k' = k then some v else lookupA k rest

def setA {α : Type} (k : String) (v : α) : List (String × α) → List (String × α)
  | [] => [(k, v)]
  | (k', v') :: rest => if k' = k then (k, v) :: rest else (k', v') :: setA k v rest

def removeA {α : Type} (k : String) : List (String × α) → List (String × α)
  | [] => []
  | (k', v') :: rest => if k' = k then removeA k rest else (k', v') :: removeA k rest

/-! ### QR payload codec (`src/services/qr_service.py`)

Token strings are modelled as `List Char`.  `pySplitGo`/`pySplit` is a
faithful model of Python's `str.split(sep)` for a non-empty separator:
scan left to right, cut at each non-overlapping occurrence of `sep`.
(Python raises `ValueError` on an empty separator, which the guard
`0 < sep.length` excludes; the fuel argument, instantiated with the input
length, only makes the structural recursion explicit and is never
exhausted.)
-/

def pySplitGo (sep : List Char) : Nat → List Char → List Char → List (List Char)
  | _, [], acc => [acc]
  | 0, l, acc => [acc ++ l]
  | fuel + 1, c :: rest, acc =>
    if 0 < sep.length ∧ sep.isPrefixOf (c :: rest) then
      acc :: pySplitGo sep fuel (List.drop sep.length (c :: rest)) []
    else
      pySplitGo sep fuel rest (acc ++ [c])

def pySplit (sep s : List Char) : List (List Char) := pySplitGo sep s.length s []

/-- Occurrence of `sep` as a contiguous subsequence of `l`. -/
def occursIn (sep l : List Char) : Bool := l.tails.any (fun t => sep.isPrefixOf t)

inductive QRError where
  | invalidFormat
deriving DecidableEq

/-- The literal tag required by `QRService.validate_qr_data`. -/
def qlessTag : List Char := "QLESS_CHECKIN:".toList

/-- `QRService.validate_qr_data` (qr_service.py lines 38-47): reject empty
input or input not starting with the tag; otherwise return
`qr_data.split("QLESS_CHECKIN:")[1]` (the bare `except` returning
"Invalid QR code format" corresponds to the index being out of range, which
cannot happen once the input starts with the tag). -/
def validate_qr_data (qr_data : List Char) : Except QRError (List Char) :=
  if qr_data.isEmpty || !(qlessTag.isPrefixOf qr_data) then .error .invalidFormat
  else
    match pySplit qlessTag qr_data with
    | _ :: x :: _ => .ok x
    | _ => .error .invalidFormat

/-- The text payload produced by `QRService.generate_facility_qr`
(qr_service.py lines 12-36): the app URL with the facility id as a query
parameter — not the `QLESS_CHECKIN:` form. -/
def generate_qr_payload (facility_id : List Char) : List Char :=
  "http://192.168.91.54:8501/?facility=".toList ++ facility_id

/-! ### User directory and access control (`src/auth/authentication.py`)

`ROLES`, `SUPER_ADMIN_EMAILS` and `SESSION_TIMEOUT` come from a `config`
module that is not part of the sources; the three role values are modelled
as an enumeration and the other two as parameters.  Stored user records
model Firebase dicts whose fields may be absent (`Option`), with the read
defaults the code uses (`.get('active', True)`, `.get('role', STUDENT)`,
`.get('name', 'User')`).
-/

inductive Role where
  | student
  | admin
  | superAdmin
deriving DecidableEq

/-- The `role_hierarchy` table in `AuthManager.has_role`
(authentication.py lines 127-131). -/
def roleRank : Role → Nat
  | .superAdmin => 3
  | .admin => 2
  | .student => 1

structure UserRec where
  email : Option String
  name : Option String
  password : Option String
  role : Option Role
  active : Option Bool
  points : Option Int
  created_at : Option Nat
  last_login : Option Nat
deriving DecidableEq

abbrev Users := List (String × UserRec)

/-- The session dict built by `AuthManager.login` and stored in
`st.session_state.user`; `login_time` is optional because
`is_authenticated` guards on its presence. -/
structure SessionUser where
  uid : String
  email : String
  name : String
  role : Role
  login_time : Option Nat
deriving DecidableEq

/-- Identifier derivation used by `register_user` and `login`
(authentication.py lines 24 and 51): `email.split('@')[0].replace('.', '_')`.
`split('@')[0]` is the first component of the Python split (the split of a
non-empty string is never empty, so the index is always in range), and
`replace('.', '_')` with single-character arguments is a character-wise
map. -/
def deriveId (email : String) : String :=
  String.mk (((pySplit "@".toList email.toList).headD []).map
    (fun c => if c = '.' then '_' else c))

inductive RegError where
  | duplicateUser
deriving DecidableEq

/-- `AuthManager.register_user` (authentication.py lines 20-46). -/
def register_user (users : Users) (hashFn : String → String)
    (email password name : String) (role : Role) (now : Nat) : Except RegError Users :=
  let uid := deriveId email
  match lookupA uid users with
  | some _ => .error .duplicateUser
  | none =>
    .ok (setA uid
      { email := some email, name := some name, password := some (hashFn password),
        role := some role, active := some true, points := some 0,
        created_at := some now, last_login := none } users)

inductive AuthError where
  | notFound
  | disabled
  | invalidPassword
deriving DecidableEq

/-- `AuthManager.login` (authentication.py lines 48-89): look up the derived
id, fail `notFound` / `disabled` / `invalidPassword` in that order; on
success apply the super-admin allow-list override and stamp `last_login`,
returning the session dict together with the updated user store. -/
def login (users : Users) (hashFn : String → String) (superAdminEmails : List String)
    (email password : String) (now : Nat) : Except AuthError SessionUser × Users :=
  let uid := deriveId email
  match lookupA uid users with
  | none => (.error .notFound, users)
  | some rec =>
    if rec.active.getD true = false then (.error .disabled, users)
    else if rec.password ≠ some (hashFn password) then (.error .invalidPassword, users)
    else
      let role := if email ∈ superAdminEmails then Role.superAdmin else rec.role.getD .student
      let rec1 := if email ∈ superAdminEmails then { rec with role := some .superAdmin } else rec
      let rec2 := { rec1 with last_login := some now }
      (.ok { uid := uid, email := email, name := rec.name.getD "User",
             role := role, login_time := some now },
       setA uid rec2 users)

/-- `AuthManager.is_authenticated` (authentication.py lines 98-110): a
session must be present, and when it carries a `login_time`, no more than
`SESSION_TIMEOUT` minutes may have elapsed (strict comparison).  Time is
measured in minutes; `timeout` models `SESSION_TIMEOUT` from the absent
`config` module. -/
def is_authenticated (session : Option SessionUser) (now timeout : Nat) : Bool :=
  match session with
  | none => false
  | some u =>
    match u.login_time with
    | none => true
    | some lt => !(decide (now - lt > timeout))

/-- `AuthManager.get_current_user` (authentication.py lines 112-116). -/
def get_current_user (session : Option SessionUser) (now timeout : Nat) : Option SessionUser :=
  if is_authenticated session now timeout then session else none

/-- `AuthManager.has_role` (authentication.py lines 118-133): the code's
realization of `authorize(user, requiredRole)`. -/
def has_role (session : Option SessionUser) (now timeout : Nat) (required : Role) : Bool :=
  match get_current_user session now timeout with
  | none => false
  | some u => decide (roleRank u.role ≥ roleRank required)

/-- Modelled from the spec (§4.2): `authorize(user, requiredRole)` is true
iff the user is authenticated, the account is active, and
`rank(user.role) >= rank(requiredRole)`.  Written from the spec's words for
comparison with `has_role`; the account's `active` flag is an extra input
because the session dict does not carry it. -/
def authorize_spec (session : Option SessionUser) (accountActive : Bool)
    (now timeout : Nat) (required : Role) : Bool :=
  is_authenticated session now timeout && accountActive &&
    match session with
    | none => false
    | some u => decide (roleRank u.role ≥ roleRank required)

/-- `AuthManager.update_user_role` (authentication.py lines 176-183): a
Firebase `update` on `users/<uid>` with no existence check — it merges the
role field into the existing record, or creates a record holding only that
field, and always reports success. -/
def update_user_role (users : Users) (uid : String) (new_role : Role) : Bool × Users :=
  match lookupA uid users with
  | some rec => (true, setA uid { rec with role := some new_role } users)
  | none =>
    (true, setA uid
      { email := none, name := none, password := none, role := some new_role,
        active := none, points := none, created_at := none, last_login := none } users)

/-- `AuthManager.toggle_user_status` (authentication.py lines 185-201):
fails when the record is absent, otherwise negates the stored `active` flag
(read default `True`). -/
def toggle_user_status (users : Users) (uid : String) : Except AuthError Users :=
  match lookupA uid users with
  | none => .error .notFound
  | some rec => .ok (setA uid { rec with active := some (!(rec.active.getD true)) } users)

/-! ### Queue service (`src/services/queue_service.py`)

The three Firebase roots `queues`, `active_queues` and `history` form the
tracked state `DB`.  Counts are `Int` because the Python integers are
unbounded and nothing in the storage layer forbids negative values.
-/

structure QueueRec where
  count : Int
  last_updated : Option Nat
deriving DecidableEq

structure ActiveRec where
  name : Option String
  checkin_time : Nat
deriving DecidableEq

inductive HAction where
  | checkin
  | checkout
  | reset
deriving DecidableEq

/-- A history entry as pushed by `checkin` / `checkout` / `reset_queue`
(`hour`/`day` are functions of the timestamp and are not modelled
separately). -/
structure HistEntry where
  action : HAction
  count : Int
  timestamp : Nat
  user_id : Option String
  user_name : Option String
  admin_id : Option String
deriving DecidableEq

structure DB where
  queues : List (String × QueueRec)
  active_queues : List (String × List (String × ActiveRec))
  history : List (String × List HistEntry)
deriving DecidableEq

def DB.empty : DB := ⟨[], [], []⟩

/-- `current.get('count', 0)` for `queue_ref.get() or \x7b\x7d`. -/
def getCount (db : DB) (fid : String) : Int :=
  ((lookupA fid db.queues).map QueueRec.count).getD 0

def pushHistory (db : DB) (fid : String) (e : HistEntry) : DB :=
  { db with history := setA fid (((lookupA fid db.history).getD []) ++ [e]) db.history }

/-- The scan in `QueueService.is_user_checked_in` (queue_service.py lines
38-55): iterate the `active_queues` node in insertion order and return the
first facility whose (non-empty) user dict contains `user_id` as a key. -/
def findUserFacility (uid : String) : List (String × List (String × ActiveRec)) → Option String
  | [] => none
  | (fid, users) :: rest =>
    if users ≠ [] ∧ (lookupA uid users).isSome then some fid else findUserFacility uid rest

def is_user_checked_in (db : DB) (uid : String) : Bool × Option String :=
  match findUserFacility uid db.active_queues with
  | some fid => (true, some fid)
  | none => (false, none)

inductive CheckinError where
  | alreadyCheckedInHere
  | alreadyCheckedInElsewhere (current : String)
deriving DecidableEq

inductive CheckoutError where
  | notCheckedInAnywhere
  | checkedInElsewhere (current : String)
  | queueAlreadyEmpty
deriving DecidableEq

/-- The unconditional part of `QueueService.checkin` (queue_service.py lines
80-114): increment the count, stamp `last_updated`, push a history entry,
and (when a user id was supplied) record the active check-in. -/
def checkinApply (db : DB) (fid : String) (uid : Option String) (uname : Option String)
    (now : Nat) : Except CheckinError Int × DB :=
  let new_count := getCount db fid + 1
  let db1 : DB := { db with queues := setA fid ⟨new_count, some now⟩ db.queues }
  let db2 := pushHistory db1 fid
    { action := .checkin, count := new_count, timestamp := now,
      user_id := uid, user_name := if uid.isSome then uname else none, admin_id := none }
  let db3 : DB :=
    match uid with
    | some u =>
      let inner := setA u ⟨uname, now⟩ ((lookupA fid db2.active_queues).getD [])
      { db2 with active_queues := setA fid inner db2.active_queues }
    | none => db2
  (.ok new_count, db3)

/-- `QueueService.checkin` (queue_service.py lines 64-117): when a user id
is supplied, first reject a user who is already checked in somewhere
(`alreadyCheckedInHere` for the same facility, `alreadyCheckedInElsewhere`
otherwise); the error payload records the facility the scan found. -/
def checkin (db : DB) (fid : String) (uid : Option String) (uname : Option String)
    (now : Nat) : Except CheckinError Int × DB :=
  match uid with
  | some u =>
    match (is_user_checked_in db u).2 with
    | some cur =>
      if cur = fid then (.error .alreadyCheckedInHere, db)
      else (.error (.alreadyCheckedInElsewhere cur), db)
    | none => checkinApply db fid (some u) uname now
  | none => checkinApply db fid none uname now

/-- The unconditional part of `QueueService.checkout` (queue_service.py
lines 133-166): fail `queueAlreadyEmpty` when the count is already ≤ 0,
otherwise decrement, stamp, push a history entry, and (when a user id was
supplied) delete the active check-in record. -/
def checkoutApply (db : DB) (fid : String) (uid : Option String) (now : Nat) :
    Except CheckoutError Int × DB :=
  let current_count := getCount db fid
  if current_count ≤ 0 then (.error .queueAlreadyEmpty, db)
  else
    let new_count := current_count - 1
    let db1 : DB := { db with queues := setA fid ⟨new_count, some now⟩ db.queues }
    let db2 := pushHistory db1 fid
      { action := .checkout, count := new_count, timestamp := now,
        user_id := uid, user_name := none, admin_id := none }
    let db3 : DB :=
      match uid with
      | some u =>
        let inner := removeA u ((lookupA fid db2.active_queues).getD [])
        { db2 with active_queues := setA fid inner db2.active_queues }
      | none => db2
    (.ok new_count, db3)

/-- `QueueService.checkout` (queue_service.py lines 119-169): when a user id
is supplied, first require the user to be checked in to exactly this
facility (`notCheckedInAnywhere` / `checkedInElsewhere`). -/
def checkout (db : DB) (fid : String) (uid : Option String) (now : Nat) :
    Except CheckoutError Int × DB :=
  match uid with
  | some u =>
    match (is_user_checked_in db u).2 with
    | none => (.error .notCheckedInAnywhere, db)
    | some cur =>
      if cur ≠ fid then (.error (.checkedInElsewhere cur), db)
      else checkoutApply db fid (some u) now
  | none => checkoutApply db fid none now

/-- `QueueService.reset_queue` (queue_service.py lines 194-217): set the
count to zero, delete the facility's whole active-checkin node, and push a
reset history entry stamped with the acting admin. -/
def reset_queue (db : DB) (fid : String) (admin_id : String) (now : Nat) : DB :=
  let db1 : DB := { db with queues := setA fid ⟨0, some now⟩ db.queues }
  let db2 : DB := { db1 with active_queues := removeA fid db1.active_queues }
  pushHistory db2 fid
    { action := .reset, count := 0, timestamp := now,
      user_id := none, user_name := none, admin_id := some admin_id }

/-! ### Operation traces over the tracked state -/

inductive Op where
  | checkin (fid : String) (uid : Option String) (uname : Option String) (now : Nat)
  | checkout (fid : String) (uid : Option String) (now : Nat)
  | reset (fid : String) (admin : String) (now : Nat)
deriving DecidableEq

def applyOp (db : DB) : Op → DB
  | .checkin f u n t => (checkin db f u n t).2
  | .checkout f u t => (checkout db f u t).2
  | .reset f a t => reset_queue db f a t

def run (db : DB) (ops : List Op) : DB := ops.foldl applyOp db

/-- `u` is recorded in facility `fid`'s active-checkin set. -/
def activeIn (db : DB) (fid : String) (u : String) : Bool :=
  match lookupA fid db.active_queues with
  | some users => (lookupA u users).isSome
  | none => false

/-- The per-user single-active-checkin invariant, together with
well-formedness of the outer association list (distinct facility keys, as
Firebase guarantees for its dict nodes). -/
def Inv (db : DB) : Prop :=
  ((db.active_queues.map Prod.fst).Nodup) ∧
    ∀ u f₁ f₂, activeIn db f₁ u = true → activeIn db f₂ u = true → f₁ = f₂

/-- `op` is a `checkin` or `checkout` (not a `reset`). -/
def IsCheckinCheckout : Op → Prop
  | .checkin _ _ _ _ => True
  | .checkout _ _ _ => True
  | .reset _ _ _ => False

/-- `op`, executed in state `db`, is a successful `checkout(f, some u)` —
the release step that ends user `u`'s check-in at facility `f`. -/
def ReleasesAt (f u : String) (db : DB) : Op → Prop
  | .checkout f' uid' t =>
    f' = f ∧ uid' = some u ∧ ∃ c, (checkout db f' uid' t).1 = .ok c
  | _ => False

/-- No operation of the trace, executed at its position, is a successful
`checkout(f, some u)`. -/
def NoRelease (f u : String) : DB → List Op → Prop
  | _, [] => True
  | db, op :: rest => ¬ ReleasesAt f u db op ∧ NoRelease f u (applyOp db op) rest

/-! ### Facility service (`src/services/facility_service.py`)

Only the fields the statistics computation reads are modelled; occupancy is
exact rational arithmetic in place of Python floats. -/

structure Facility where
  name : String
  capacity : Int
  icon : String
  avg_time_per_person : Int
  open_hour_start : Nat
  open_hour_end : Nat
  description : String
  active : Bool
deriving DecidableEq

abbrev Facilities := List (String × Facility)

structure StatusInfo where
  level : String
  emoji : String
  text : String
  color : String
deriving DecidableEq

/-- `FacilityService._get_status` (facility_service.py lines 181-190). -/
def get_status (count capacity : Int) : StatusInfo :=
  let occupancy : ℚ := if capacity > 0 then (count : ℚ) / (capacity : ℚ) * 100 else 0
  if occupancy < 40 then ⟨"low", "🟢", "Low", "#28a745"⟩
  else if occupancy < 70 then ⟨"moderate", "🟡", "Moderate", "#ffc107"⟩
  else ⟨"high", "🔴", "High", "#dc3545"⟩

structure FacilityStats where
  current_count : Int
  capacity : Int
  occupancy_percentage : ℚ
  wait_time : Int
  status : StatusInfo
  last_updated : Option Nat
deriving DecidableEq

/-- `FacilityService.get_facility_stats` (facility_service.py lines
157-179): `None` for an unknown facility, otherwise the display stats
computed from the queue count and the facility record. -/
def get_facility_stats (db : DB) (facilities : Facilities) (fid : String) :
    Option FacilityStats :=
  let queue_data := lookupA fid db.queues
  match lookupA fid facilities with
  | none => none
  | some fac =>
    let current_count := (queue_data.map QueueRec.count).getD 0
    some
      { current_count := current_count, capacity := fac.capacity,
        occupancy_percentage :=
          if fac.capacity > 0 then (current_count : ℚ) / (fac.capacity : ℚ) * 100 else 0,
        wait_time := current_count * fac.avg_time_per_person,
        status := get_status current_count fac.capacity,
        last_updated := queue_data.bind QueueRec.last_updated }

/-! ### Supporting lemmas: association lists -/

theorem lookupA_setA_self {α : Type} (k : String) (v : α) (l : List (String × α)) :
    lookupA k (setA k v l) = some v := by
  induction l with
  | nil => simp [setA, lookupA]
  | cons hd tl ih =>
    obtain ⟨k', v'⟩ := hd
    by_cases h : k' = k
    · simp [setA, h, lookupA]
    · simp [setA, h, lookupA, ih]

theorem lookupA_setA_other {α : Type} (k k₂ : String) (v : α) (l : List (String × α))
    (hne : k₂ ≠ k) : lookupA k₂ (setA k v l) = lookupA k₂ l := by
  induction l with
  | nil => simp [setA, lookupA, Ne.symm hne]
  | cons hd tl ih =>
    obtain ⟨k', v'⟩ := hd
    by_cases h : k' = k
    · subst h
      simp [setA, lookupA, Ne.symm hne]
    · simp only [setA, if_neg h, lookupA]
      by_cases h2 : k' = k₂ <;> simp [h2, ih]

theorem lookupA_removeA_self {α : Type} (k : String) (l : List (String × α)) :
    lookupA k (removeA k l) = none := by
  induction l with
  | nil => simp [removeA, lookupA]
  | cons hd tl ih =>
    obtain ⟨k', v'⟩ := hd
    by_cases h : k' = k <;> simp [removeA, h, lookupA, ih]

theorem lookupA_removeA_other {α : Type} (k k₂ : String) (l : List (String × α))
    (hne : k₂ ≠ k) : lookupA k₂ (removeA k l) = lookupA k₂ l := by
  induction l with
  | nil => simp [removeA]
  | cons hd tl ih =>
    obtain ⟨k', v'⟩ := hd
    by_cases h : k' = k
    · subst h
      simp [removeA, lookupA, Ne.symm hne, ih]
    · simp only [removeA, if_neg h, lookupA]
      by_cases h2 : k' = k₂ <;> simp [h2, ih]

theorem mem_of_lookupA {α : Type} {k : String} {v : α} {l : List (String × α)}
    (h : lookupA k l = some v) : (k, v) ∈ l := by
  induction l with
  | nil => simp [lookupA] at h
  | cons hd tl ih =>
    obtain ⟨k', v'⟩ := hd
    by_cases hk : k' = k
    · subst hk
      simp [lookupA] at h
      simp [h]
    · simp [lookupA, hk] at h
      simp [ih h]

theorem lookupA_of_mem_nodup {α : Type} {k : String} {v : α} {l : List (String × α)}
    (hmem : (k, v) ∈ l) (hnd : (l.map Prod.fst).Nodup) : lookupA k l = some v := by
  induction l with
  | nil => simp at hmem
  | cons hd tl ih =>
    obtain ⟨k', v'⟩ := hd
    rw [List.map_cons, List.nodup_cons] at hnd
    rcases List.mem_cons.mp hmem with h | h
    · cases h
      simp [lookupA]
    · have hne : k' ≠ k := by
        rintro rfl
        exact hnd.1 (List.mem_map.mpr ⟨(k', v), h, rfl⟩)
      simp [lookupA, hne, ih h hnd.2]

theorem keys_setA {α : Type} (k : String) (v : α) (l : List (String × α)) :
    (setA k v l).map Prod.fst = if k ∈ l.map Prod.fst then l.map Prod.fst
      else l.map Prod.fst ++ [k] := by
  induction l with
  | nil => simp [setA]
  | cons hd tl ih =>
    obtain ⟨k', v'⟩ := hd
    by_cases h : k' = k
    · subst h
      simp [setA]
    · simp only [setA, if_neg h, List.map_cons, ih, List.mem_cons]
      have hks : ¬ k = k' := Ne.symm h
      by_cases h2 : k ∈ tl.map Prod.fst <;> simp [h2, hks]

theorem nodup_keys_setA {α : Type} (k : String) (v : α) (l : List (String × α))
    (hnd : (l.map Prod.fst).Nodup) : ((setA k v l).map Prod.fst).Nodup := by
  rw [keys_setA]
  by_cases h : k ∈ l.map Prod.fst
  · simpa [h]
  · simpa [h, List.nodup_append]

theorem removeA_eq_filter {α : Type} (k : String) (l : List (String × α)) :
    removeA k l = l.filter (fun p => p.1 ≠ k) := by
  induction l with
  | nil => simp [removeA]
  | cons hd tl ih =>
    obtain ⟨k', v'⟩ := hd
    by_cases h : k' = k <;> simp [removeA, h, ih, List.filter_cons]

theorem nodup_keys_removeA {α : Type} (k : String) (l : List (String × α))
    (hnd : (l.map Prod.fst).Nodup) : ((removeA k l).map Prod.fst).Nodup := by
  rw [removeA_eq_filter]
  exact hnd.sublist ((List.filter_sublist l).map Prod.fst)

/-! ### Supporting lemmas: the Python split -/

theorem pySplitGo_no_occurrence (sep : List Char) (fuel : Nat) (l acc : List Char)
    (h : occursIn sep l = false) (hfuel : l.length ≤ fuel) :
    pySplitGo sep fuel l acc = [acc ++ l] := by
  induction l generalizing fuel acc with
  | nil => cases fuel <;> simp [pySplitGo]
  | cons c rest ih =>
    have htails : sep.isPrefixOf (c :: rest) = false ∧ occursIn sep rest = false := by
      unfold occursIn at h ⊢
      rw [List.tails_cons] at h
      simp only [List.any_cons, Bool.or_eq_false_iff] at h
      exact ⟨h.1, h.2⟩
    cases fuel with
    | zero => simp at hfuel
    | succ n =>
      rw [pySplitGo]
      rw [if_neg (by simp [htails.1])]
      rw [ih _ _ htails.2 (by simp at hfuel; omega)]
      simp

theorem pySplit_tag_prefix (sep f : List Char) (hsep : 0 < sep.length)
    (h : occursIn sep f = false) : pySplit sep (sep ++ f) = [[], f] := by
  unfold pySplit
  obtain ⟨c, srest, rfl⟩ : ∃ c srest, sep = c :: srest := by
    cases sep with
    | nil => simp at hsep
    | cons c srest => exact ⟨c, srest, rfl⟩
  rw [List.cons_append]
  simp only [List.length_cons, pySplitGo]
  rw [if_pos ⟨hsep, by
    rw [← List.cons_append]
    exact List.isPrefixOf_iff_prefix.mpr (List.prefix_append _ _)⟩]
  rw [List.drop_succ_cons, List.drop_left]
  rw [pySplitGo_no_occurrence _ _ _ _ h (by simp)]
  simp

theorem isPrefixOf_cons_false {a b : Char} (hab : a ≠ b) (l m : List Char) :
    List.isPrefixOf (a :: l) (b :: m) = false := by
  simp [List.isPrefixOf, hab]

theorem tag_not_prefix_of_payload (f : List Char) :
    qlessTag.isPrefixOf (generate_qr_payload f) = false := by
  have h1 : qlessTag = 'Q' :: "LESS_CHECKIN:".toList := by decide
  have h2 : "http://192.168.91.54:8501/?facility=".toList
      = 'h' :: "ttp://192.168.91.54:8501/?facility=".toList := by decide
  rw [generate_qr_payload, h1, h2, List.cons_append]
  exact isPrefixOf_cons_false (by decide) _ _

/-! ### Claim C1 — QR payload codec -/

/-- C1 counterexample: encoding the facility identifier `cafeteria_main`
does not produce `QLESS_CHECKIN:cafeteria_main` (it produces the app URL),
and decoding the encoded token fails with InvalidFormat instead of
returning the identifier; so the claimed round trip is false as stated. -/
theorem C1_counterexample :
    generate_qr_payload "cafeteria_main".toList ≠ "QLESS_CHECKIN:cafeteria_main".toList ∧
    validate_qr_data (generate_qr_payload "cafeteria_main".toList) = .error .invalidFormat := by
  decide

/-- C1 (amended): the decoder side of the claim holds — decoding
`QLESS_CHECKIN:<f>` succeeds and returns exactly `f` (for identifiers not
themselves containing the tag), and decoding any string lacking the exact
literal prefix `QLESS_CHECKIN:` fails with InvalidFormat — but the encoder
produces the token `http://192.168.91.54:8501/?facility=<f>` rather than
`QLESS_CHECKIN:<f>`, and decoding that encoded token fails with
InvalidFormat. -/
theorem C1_qr_codec (f s : List Char) (hf : occursIn qlessTag f = false)
    (hs : qlessTag.isPrefixOf s = false) :
    validate_qr_data (qlessTag ++ f) = .ok f ∧
    generate_qr_payload f = "http://192.168.91.54:8501/?facility=".toList ++ f ∧
    validate_qr_data (generate_qr_payload f) = .error .invalidFormat ∧
    validate_qr_data s = .error .invalidFormat := by
  refine ⟨?_, rfl, ?_, ?_⟩
  · have hpre : qlessTag.isPrefixOf (qlessTag ++ f) = true :=
      List.isPrefixOf_iff_prefix.mpr (List.prefix_append _ _)
    have hne : (qlessTag ++ f).isEmpty = false := by
      have h1 : qlessTag = 'Q' :: "LESS_CHECKIN:".toList := by decide
      rw [h1, List.cons_append]
      rfl
    rw [validate_qr_data, hne, hpre, pySplit_tag_prefix _ _ (by decide) hf]
    simp
  · have hpre := tag_not_prefix_of_payload f
    rw [validate_qr_data, hpre]
    simp
  · rw [validate_qr_data, hs]
    simp

/-- C1 witness: the amended theorem evaluated at the spec's own scenario,
`decode("QLESS_CHECKIN:cafeteria_main") = cafeteria_main` and
`decode("garbage") = InvalidFormat`. -/
theorem C1_qr_codec_witness :
    validate_qr_data (qlessTag ++ "cafeteria_main".toList) = .ok "cafeteria_main".toList ∧
    validate_qr_data "garbage".toList = .error .invalidFormat :=
  ⟨(C1_qr_codec "cafeteria_main".toList "garbage".toList (by decide) (by decide)).1,
   (C1_qr_codec "cafeteria_main".toList "garbage".toList (by decide) (by decide)).2.2.2⟩

/-! ### Claim C2 — authorization -/

/-- C2 counterexample: a session user whose account has `active = false`
(toggled after login) still authorizes — `has_role` is true while the
claim's right-hand side (spec §4.2, including the account-active conjunct)
is false at the same input. -/
theorem C2_counterexample :
    has_role (some ⟨"u1", "u1@x.edu", "U One", .student, some 0⟩) 0 30 .student = true ∧
    authorize_spec (some ⟨"u1", "u1@x.edu", "U One", .student, some 0⟩) false 0 30
      .student = false := by
  decide

/-- C2 (amended): `authorize` (the code's `has_role`) returns true iff the
user is authenticated (session present and not expired past the configured
timeout) and `rank(user.role) >= rank(requiredRole)` under
Student(1) < Admin(2) < SuperAdmin(3); the account's `active` flag is not
consulted at authorization time (only at login). -/
theorem C2_authorize (session : Option SessionUser) (now timeout : Nat) (required : Role) :
    has_role session now timeout required = true ↔
      (is_authenticated session now timeout = true ∧
        ∃ u, session = some u ∧ roleRank u.role ≥ roleRank required) := by
  cases session with
  | none => simp [has_role, get_current_user, is_authenticated]
  | some u =>
    by_cases h : is_authenticated (some u) now timeout = true
    · simp [has_role, get_current_user, h]
    · simp only [Bool.not_eq_true] at h
      simp [has_role, get_current_user, h]

/-! ### Claim C5 — authentication postcondition -/

/-- C5: `login` succeeds iff a record exists at the derived identifier, is
active (read default true), and stores exactly the hash of the supplied
password; otherwise it fails `notFound` when the record is absent,
`disabled` when inactive, and `invalidPassword` when the hash mismatches,
checked in that order (the `disabled` outcome does not depend on the
password). -/
theorem C5_authenticate (users : Users) (hashFn : String → String)
    (superAdminEmails : List String) (email password : String) (now : Nat) :
    ((∃ s us, login users hashFn superAdminEmails email password now = (.ok s, us)) ↔
      (∃ rec, lookupA (deriveId email) users = some rec ∧ rec.active.getD true = true ∧
        rec.password = some (hashFn password))) ∧
    (lookupA (deriveId email) users = none →
      login users hashFn superAdminEmails email password now = (.error .notFound, users)) ∧
    (∀ rec, lookupA (deriveId email) users = some rec → rec.active.getD true = false →
      login users hashFn superAdminEmails email password now = (.error .disabled, users)) ∧
    (∀ rec, lookupA (deriveId email) users = some rec → rec.active.getD true = true →
      rec.password ≠ some (hashFn password) →
      login users hashFn superAdminEmails email password now =
        (.error .invalidPassword, users)) := by
  cases hrec : lookupA (deriveId email) users with
  | none =>
    simp [login, hrec]
  | some rec =>
    by_cases hact : rec.active.getD true = false
    · simp [login, hrec, hact]
    · have hact2 : rec.active.getD true = true := by
        revert hact
        cases rec.active.getD true <;> simp
      by_cases hpw : rec.password = some (hashFn password)
      · simp [login, hrec, hact, hact2, hpw]
      · simp [login, hrec, hact, hact2, hpw]

/-- C5 witness: with the hash collaborator instantiated to the identity
function, a matching active record logs in successfully, and an unknown
email fails `notFound`. -/
theorem C5_authenticate_witness :
    (∃ s us, login [("alice",
        { email := some "alice@x.edu", name := some "A", password := some "pw",
          role := some .student, active := some true, points := some 0,
          created_at := some 0, last_login := none })] (fun s => s) []
        "alice@x.edu" "pw" 7 = (.ok s, us)) ∧
    login [] (fun s => s) [] "bob@x.edu" "pw" 7 = (.error .notFound, []) := by
  constructor
  · exact (C5_authenticate _ _ _ _ _ _).1.mpr
      ⟨{ email := some "alice@x.edu", name := some "A", password := some "pw",
         role := some .student, active := some true, points := some 0,
         created_at := some 0, last_login := none }, by decide, by decide, by decide⟩
  · exact (C5_authenticate _ _ _ _ _ _).2.1 (by decide)

/-! ### Claim C6 — identifier derivation -/

/-- C6 counterexample: two distinct well-formed campus emails collide under
`deriveId` (the '.'-to-'_' rewriting is not injective), so the derivation
function itself is not injective as claimed. -/
theorem C6_counterexample :
    deriveId "john.doe@campus.edu" = deriveId "john_doe@campus.edu" ∧
    ("john.doe@campus.edu" : String) ≠ "john_doe@campus.edu" := by
  decide

/-- C6 (amended): `deriveId` is a deterministic pure function but not
injective on well-formed emails; uniqueness of identifiers among registered
users is instead enforced by registration, which rejects any email whose
derived identifier is already occupied with `DuplicateUser`, so no two
registered emails yield the same stored identifier. -/
theorem C6_derive_id (users : Users) (hashFn : String → String)
    (e1 p1 n1 : String) (r1 : Role) (t1 : Nat) (us1 : Users)
    (h : register_user users hashFn e1 p1 n1 r1 t1 = .ok us1)
    (e2 p2 n2 : String) (r2 : Role) (t2 : Nat)
    (he : deriveId e2 = deriveId e1) :
    register_user us1 hashFn e2 p2 n2 r2 t2 = .error .duplicateUser := by
  rw [register_user] at h ⊢
  cases hrec : lookupA (deriveId e1) users with
  | some r => rw [hrec] at h; cases h
  | none =>
    rw [hrec] at h
    cases Except.ok.inj h
    rw [he, lookupA_setA_self]

/-- C6 witness: after registering `john.doe@x`, registering `john_doe@x`
(same derived identifier `john_doe`) fails `DuplicateUser`. -/
theorem C6_derive_id_witness :
    register_user [("john_doe",
      { email := some "john.doe@x", name := some "J", password := some "p",
        role := some .student, active := some true, points := some 0,
        created_at := some 0, last_login := none })] (fun s => s)
      "john_doe@x" "p2" "J2" .student 1 = .error .duplicateUser :=
  C6_derive_id [] (fun s => s) "john.doe@x" "p" "J" .student 0 _ (by decide)
    "john_doe@x" "p2" "J2" .student 1 (by decide)

/-! ### Claim C7 — direct user mutations -/

/-- C7 counterexample: `update_user_role` (the code's `setRole`) on an
empty user store — where no record exists at the identifier — does not
return NotFound; it reports success. -/
theorem C7_counterexample :
    (update_user_role [] "u1" .admin).1 = true ∧ lookupA "u1" ([] : Users) = none := by
  decide

/-- C7 (amended): `setRole` (`update_user_role`) never returns NotFound —
it succeeds even when no record exists, merging/creating the role field;
`setActive` is realized as `toggle_user_status`, which does return NotFound
when the record is absent and otherwise stores the negation of the current
`active` flag (read default true) rather than a supplied value. -/
theorem C7_user_mutations (users : Users) (uid : String) (r : Role) :
    ((update_user_role users uid r).1 = true ∧
      ∃ rec, lookupA uid (update_user_role users uid r).2 = some rec ∧ rec.role = some r) ∧
    (lookupA uid users = none → toggle_user_status users uid = .error .notFound) ∧
    (∀ rec, lookupA uid users = some rec →
      ∃ us, toggle_user_status users uid = .ok us ∧
        lookupA uid us = some { rec with active := some (!(rec.active.getD true)) }) := by
  refine ⟨?_, ?_, ?_⟩
  · cases hrec : lookupA uid users with
    | none =>
      simp [update_user_role, hrec, lookupA_setA_self]
    | some rec =>
      simp [update_user_role, hrec, lookupA_setA_self]
  · intro h
    simp [toggle_user_status, h]
  · intro rec hrec
    refine ⟨setA uid { rec with active := some (!(rec.active.getD true)) } users, ?_,
      lookupA_setA_self _ _ _⟩
    simp [toggle_user_status, hrec]

/-- C7 witness: toggling an absent user fails NotFound; toggling a present
active user stores `active = false`. -/
theorem C7_user_mutations_witness :
    toggle_user_status ([] : Users) "u1" = .error .notFound ∧
    (∃ us, toggle_user_status [("u2",
        { email := some "u2@x", name := some "U", password := some "p",
          role := some .student, active := some true, points := some 0,
          created_at := some 0, last_login := none })] "u2" = .ok us ∧
      lookupA "u2" us = some
        { email := some "u2@x", name := some "U", password := some "p",
          role := some .student, active := some false, points := some 0,
          created_at := some 0, last_login := none }) := by
  constructor
  · exact (C7_user_mutations [] "u1" .admin).2.1 (by decide)
  · exact (C7_user_mutations [("u2",
      { email := some "u2@x", name := some "U", password := some "p",
        role := some .student, active := some true, points := some 0,
        created_at := some 0, last_login := none })] "u2" .admin).2.2
      { email := some "u2@x", name := some "U", password := some "p",
        role := some .student, active := some true, points := some 0,
        created_at := some 0, last_login := none } (by decide)

/-! ### Supporting lemmas: queue-service state equations -/

theorem getCount_of_queues_setA {db' : DB} (db : DB) (fid : String) (c : Int) (t : Option Nat)
    (h : db'.queues = setA fid ⟨c, t⟩ db.queues) (g : String) :
    getCount db' g = if g = fid then c else getCount db g := by
  unfold getCount
  rw [h]
  by_cases hg : g = fid
  · subst hg
    rw [lookupA_setA_self]
    simp
  · rw [lookupA_setA_other _ _ _ _ hg, if_neg hg]

theorem fst_checkinApply (db : DB) (fid : String) (uid uname : Option String) (now : Nat) :
    (checkinApply db fid uid uname now).1 = .ok (getCount db fid + 1) := by
  cases uid <;> simp [checkinApply]

theorem queues_checkinApply (db : DB) (fid : String) (uid uname : Option String) (now : Nat) :
    (checkinApply db fid uid uname now).2.queues
      = setA fid ⟨getCount db fid + 1, some now⟩ db.queues := by
  cases uid <;> simp [checkinApply, pushHistory]

theorem active_checkinApply_none (db : DB) (fid : String) (uname : Option String) (now : Nat) :
    (checkinApply db fid none uname now).2.active_queues = db.active_queues := by
  simp [checkinApply, pushHistory]

theorem active_checkinApply_some (db : DB) (fid u : String) (uname : Option String) (now : Nat) :
    (checkinApply db fid (some u) uname now).2.active_queues
      = setA fid (setA u ⟨uname, now⟩ ((lookupA fid db.active_queues).getD []))
          db.active_queues := by
  simp [checkinApply, pushHistory]

theorem history_checkinApply_none (db : DB) (fid : String) (uname : Option String) (now : Nat) :
    (checkinApply db fid none uname now).2.history
      = setA fid ((lookupA fid db.history).getD [] ++
          [{ action := .checkin, count := getCount db fid + 1, timestamp := now,
             user_id := none, user_name := none, admin_id := none }]) db.history := by
  simp [checkinApply, pushHistory]

theorem checkoutApply_empty (db : DB) (fid : String) (uid : Option String) (now : Nat)
    (h : getCount db fid ≤ 0) :
    checkoutApply db fid uid now = (.error .queueAlreadyEmpty, db) := by
  simp [checkoutApply, h]

theorem fst_checkoutApply_success (db : DB) (fid : String) (uid : Option String) (now : Nat)
    (h : ¬ getCount db fid ≤ 0) :
    (checkoutApply db fid uid now).1 = .ok (getCount db fid - 1) := by
  cases uid <;> simp [checkoutApply, h]

theorem queues_checkoutApply_success (db : DB) (fid : String) (uid : Option String) (now : Nat)
    (h : ¬ getCount db fid ≤ 0) :
    (checkoutApply db fid uid now).2.queues
      = setA fid ⟨getCount db fid - 1, some now⟩ db.queues := by
  cases uid <;> simp [checkoutApply, h, pushHistory]

theorem active_checkoutApply_none (db : DB) (fid : String) (now : Nat) :
    (checkoutApply db fid none now).2.active_queues = db.active_queues := by
  by_cases h : getCount db fid ≤ 0 <;> simp [checkoutApply, h, pushHistory]

theorem active_checkoutApply_some_success (db : DB) (fid u : String) (now : Nat)
    (h : ¬ getCount db fid ≤ 0) :
    (checkoutApply db fid (some u) now).2.active_queues
      = setA fid (removeA u ((lookupA fid db.active_queues).getD [])) db.active_queues := by
  simp [checkoutApply, h, pushHistory]

theorem queues_reset (db : DB) (fid a : String) (now : Nat) :
    (reset_queue db fid a now).queues = setA fid ⟨0, some now⟩ db.queues := by
  simp [reset_queue, pushHistory]

theorem active_reset (db : DB) (fid a : String) (now : Nat) :
    (reset_queue db fid a now).active_queues = removeA fid db.active_queues := by
  simp [reset_queue, pushHistory]

/-! ### Supporting lemmas: the user scan and the single-checkin invariant -/

theorem snd_is_user_checked_in (db : DB) (u : String) :
    (is_user_checked_in db u).2 = findUserFacility u db.active_queues := by
  unfold is_user_checked_in
  cases h : findUserFacility u db.active_queues <;> simp

theorem findUserFacility_none_iff (u : String) (l : List (String × List (String × ActiveRec))) :
    findUserFacility u l = none ↔
      ∀ p ∈ l, ¬(p.2 ≠ [] ∧ (lookupA u p.2).isSome = true) := by
  induction l with
  | nil => simp [findUserFacility]
  | cons hd tl ih =>
    obtain ⟨fid, users⟩ := hd
    by_cases hc : users ≠ [] ∧ (lookupA u users).isSome
    · rw [findUserFacility, if_pos hc]
      constructor
      · intro h
        cases h
      · intro h
        exact absurd ⟨hc.1, hc.2⟩ (h (fid, users) (List.mem_cons_self _ _))
    · simp only [findUserFacility, if_neg hc, ih, List.mem_cons]
      constructor
      · rintro h p (rfl | hp)
        · exact hc
        · exact h p hp
      · intro h p hp
        exact h p (Or.inr hp)

theorem findUserFacility_some {u f : String} {l : List (String × List (String × ActiveRec))}
    (h : findUserFacility u l = some f) :
    ∃ users, (f, users) ∈ l ∧ users ≠ [] ∧ (lookupA u users).isSome = true := by
  induction l with
  | nil => simp [findUserFacility] at h
  | cons hd tl ih =>
    obtain ⟨fid, users⟩ := hd
    by_cases hc : users ≠ [] ∧ (lookupA u users).isSome
    · rw [findUserFacility, if_pos hc] at h
      cases Option.some.inj h
      exact ⟨users, List.mem_cons_self _ _, hc.1, hc.2⟩
    · rw [findUserFacility, if_neg hc] at h
      obtain ⟨us, hmem, hrest⟩ := ih h
      exact ⟨us, List.mem_cons_of_mem _ hmem, hrest⟩

theorem activeIn_eq (db : DB) (f u : String) :
    activeIn db f u = (lookupA u ((lookupA f db.active_queues).getD [])).isSome := by
  unfold activeIn
  cases h : lookupA f db.active_queues <;> simp [lookupA]

theorem scan_none_not_active (db : DB) (u : String)
    (h : (is_user_checked_in db u).2 = none) (f : String) : activeIn db f u = false := by
  rw [snd_is_user_checked_in] at h
  rw [findUserFacility_none_iff] at h
  cases hl : lookupA f db.active_queues with
  | none => simp [activeIn, hl]
  | some users =>
    have hmem := mem_of_lookupA hl
    have hnot := h _ hmem
    simp only [activeIn, hl]
    by_cases hs : (lookupA u users).isSome
    · have hne : users ≠ [] := by
        intro he
        subst he
        simp [lookupA] at hs
      exact absurd ⟨hne, hs⟩ hnot
    · simpa using hs

theorem scan_of_activeIn (db : DB) (hInv : Inv db) (f u : String)
    (h : activeIn db f u = true) : (is_user_checked_in db u).2 = some f := by
  rw [snd_is_user_checked_in]
  cases hscan : findUserFacility u db.active_queues with
  | none =>
    exfalso
    have hf := scan_none_not_active db u (by rw [snd_is_user_checked_in, hscan]) f
    rw [h] at hf
    cases hf
  | some f' =>
    obtain ⟨users, hmem, _, hs⟩ := findUserFacility_some hscan
    have hl : lookupA f' db.active_queues = some users := lookupA_of_mem_nodup hmem hInv.1
    have hact' : activeIn db f' u = true := by simp [activeIn, hl, hs]
    rw [hInv.2 u f' f hact' h]

theorem activeIn_update (db : DB) (fid : String)
    (newusers : List (String × ActiveRec)) (db' : DB)
    (h : db'.active_queues = setA fid newusers db.active_queues) (f u : String) :
    activeIn db' f u = if f = fid then (lookupA u newusers).isSome else activeIn db f u := by
  rw [activeIn_eq, activeIn_eq, h]
  by_cases hf : f = fid
  · subst hf
    rw [lookupA_setA_self]
    simp
  · rw [lookupA_setA_other _ _ _ _ hf, if_neg hf]

theorem activeIn_remove (db : DB) (fid : String) (db' : DB)
    (h : db'.active_queues = removeA fid db.active_queues) (f u : String) :
    activeIn db' f u = if f = fid then false else activeIn db f u := by
  rw [activeIn_eq, activeIn_eq, h]
  by_cases hf : f = fid
  · subst hf
    rw [lookupA_removeA_self]
    simp [lookupA]
  · rw [lookupA_removeA_other _ _ _ hf, if_neg hf]

theorem activeIn_congr {db db' : DB} (h : db'.active_queues = db.active_queues)
    (f u : String) : activeIn db' f u = activeIn db f u := by
  rw [activeIn_eq, activeIn_eq, h]

theorem Inv_congr {db db' : DB} (h : db'.active_queues = db.active_queues)
    (hInv : Inv db) : Inv db' := by
  refine ⟨by rw [h]; exact hInv.1, fun v f1 f2 h1 h2 => ?_⟩
  rw [activeIn_congr h] at h1 h2
  exact hInv.2 v f1 f2 h1 h2

theorem Inv_shrink {db db' : DB} (hInv : Inv db)
    (hnd : (db'.active_queues.map Prod.fst).Nodup)
    (hmono : ∀ f v, activeIn db' f v = true → activeIn db f v = true) : Inv db' :=
  ⟨hnd, fun v f1 f2 h1 h2 => hInv.2 v f1 f2 (hmono f1 v h1) (hmono f2 v h2)⟩

theorem Inv_empty : Inv DB.empty := by
  refine ⟨List.nodup_nil, fun u f1 f2 h1 h2 => ?_⟩
  simp [activeIn, DB.empty, lookupA] at h1

theorem activeIn_checkinApply_some (db : DB) (fid u : String) (uname : Option String)
    (now : Nat) (f v : String) :
    activeIn (checkinApply db fid (some u) uname now).2 f v
      = if f = fid then (if v = u then true else activeIn db fid v)
        else activeIn db f v := by
  rw [activeIn_update db fid _ _ (active_checkinApply_some db fid u uname now) f v]
  by_cases hf : f = fid
  · simp only [if_pos hf]
    by_cases hv : v = u
    · subst hv
      rw [lookupA_setA_self]
      simp
    · rw [lookupA_setA_other _ _ _ _ hv, if_neg hv, ← activeIn_eq]
  · simp only [if_neg hf]

theorem activeIn_checkoutApply_some (db : DB) (fid u : String) (now : Nat)
    (hcnt : ¬ getCount db fid ≤ 0) (f v : String) :
    activeIn (checkoutApply db fid (some u) now).2 f v
      = if f = fid then (if v = u then false else activeIn db fid v)
        else activeIn db f v := by
  rw [activeIn_update db fid _ _ (active_checkoutApply_some_success db fid u now hcnt) f v]
  by_cases hf : f = fid
  · simp only [if_pos hf]
    by_cases hv : v = u
    · subst hv
      rw [lookupA_removeA_self]
      simp
    · rw [lookupA_removeA_other _ _ _ hv, if_neg hv, ← activeIn_eq]
  · simp only [if_neg hf]

theorem Inv_checkinApply_some (db : DB) (hInv : Inv db) (fid u : String)
    (uname : Option String) (now : Nat)
    (hnone : ∀ f, activeIn db f u = false) :
    Inv (checkinApply db fid (some u) uname now).2 := by
  constructor
  · rw [active_checkinApply_some db fid u uname now]
    exact nodup_keys_setA _ _ _ hInv.1
  · intro v f1 f2 h1 h2
    rw [activeIn_checkinApply_some db fid u uname now f1 v] at h1
    rw [activeIn_checkinApply_some db fid u uname now f2 v] at h2
    by_cases hv : v = u
    · subst hv
      by_cases hf1 : f1 = fid
      · by_cases hf2 : f2 = fid
        · rw [hf1, hf2]
        · rw [if_neg hf2, hnone f2] at h2
          cases h2
      · rw [if_neg hf1, hnone f1] at h1
        cases h1
    · have h1' : activeIn db f1 v = true := by
        by_cases hf1 : f1 = fid
        · subst hf1
          rw [if_pos rfl, if_neg hv] at h1
          exact h1
        · rwa [if_neg hf1] at h1
      have h2' : activeIn db f2 v = true := by
        by_cases hf2 : f2 = fid
        · subst hf2
          rw [if_pos rfl, if_neg hv] at h2
          exact h2
        · rwa [if_neg hf2] at h2
      exact hInv.2 v f1 f2 h1' h2'

theorem Inv_applyOp (db : DB) (op : Op) (hInv : Inv db) : Inv (applyOp db op) := by
  cases op with
  | checkin f u un t =>
    cases u with
    | none =>
      exact Inv_congr (active_checkinApply_none db f un t) hInv
    | some v =>
      cases hscan : (is_user_checked_in db v).2 with
      | none =>
        have happ : applyOp db (.checkin f (some v) un t)
            = (checkinApply db f (some v) un t).2 := by
          simp [applyOp, checkin, hscan]
        rw [happ]
        exact Inv_checkinApply_some db hInv f v un t (scan_none_not_active db v hscan)
      | some cur =>
        have happ : applyOp db (.checkin f (some v) un t) = db := by
          by_cases hc : cur = f <;> simp [applyOp, checkin, hscan, hc]
        rw [happ]
        exact hInv
  | checkout f u t =>
    have happly : Inv (checkoutApply db f u t).2 := by
      by_cases hcnt : getCount db f ≤ 0
      · rw [checkoutApply_empty db f u t hcnt]
        exact hInv
      · cases u with
        | none => exact Inv_congr (active_checkoutApply_none db f t) hInv
        | some v =>
          refine Inv_shrink hInv ?_ ?_
          · rw [active_checkoutApply_some_success db f v t hcnt]
            exact nodup_keys_setA _ _ _ hInv.1
          · intro f2 w h2
            rw [activeIn_checkoutApply_some db f v t hcnt f2 w] at h2
            by_cases hf2 : f2 = f
            · subst hf2
              rw [if_pos rfl] at h2
              by_cases hw : w = v
              · rw [if_pos hw] at h2
                cases h2
              · rwa [if_neg hw] at h2
            · rwa [if_neg hf2] at h2
    cases u with
    | none => exact happly
    | some v =>
      cases hscan : (is_user_checked_in db v).2 with
      | none =>
        have happ : applyOp db (.checkout f (some v) t) = db := by
          simp [applyOp, checkout, hscan]
        rw [happ]
        exact hInv
      | some cur =>
        by_cases hc : cur ≠ f
        · have happ : applyOp db (.checkout f (some v) t) = db := by
            simp [applyOp, checkout, hscan, hc]
          rw [happ]
          exact hInv
        · have happ : applyOp db (.checkout f (some v) t) = (checkoutApply db f (some v) t).2 := by
            simp [applyOp, checkout, hscan, hc]
          rw [happ]
          exact happly
  | reset f a t =>
    rw [show applyOp db (.reset f a t) = reset_queue db f a t from rfl]
    refine Inv_shrink hInv ?_ ?_
    · rw [active_reset db f a t]
      exact nodup_keys_removeA _ _ hInv.1
    · intro f2 w h2
      rw [activeIn_remove db f _ (active_reset db f a t) f2 w] at h2
      by_cases hf2 : f2 = f
      · rw [if_pos hf2] at h2
        cases h2
      · rwa [if_neg hf2] at h2

theorem activeIn_preserved (db : DB) (op : Op) (f u : String) (hInv : Inv db)
    (hact : activeIn db f u = true) (hcc : IsCheckinCheckout op)
    (hnr : ¬ ReleasesAt f u db op) : activeIn (applyOp db op) f u = true := by
  cases op with
  | checkin f' v un t =>
    cases v with
    | none =>
      rw [show applyOp db (.checkin f' none un t) = (checkinApply db f' none un t).2 from rfl,
        activeIn_congr (active_checkinApply_none db f' un t)]
      exact hact
    | some v =>
      cases hscan : (is_user_checked_in db v).2 with
      | none =>
        have hvu : v ≠ u := by
          rintro rfl
          rw [scan_of_activeIn db hInv f v hact] at hscan
          cases hscan
        have happ : applyOp db (.checkin f' (some v) un t)
            = (checkinApply db f' (some v) un t).2 := by
          simp [applyOp, checkin, hscan]
        rw [happ, activeIn_checkinApply_some db f' v un t f u]
        by_cases hf : f = f'
        · rw [if_pos hf, if_neg (Ne.symm hvu), ← hf]
          exact hact
        · rw [if_neg hf]
          exact hact
      | some cur =>
        have happ : applyOp db (.checkin f' (some v) un t) = db := by
          by_cases hc : cur = f' <;> simp [applyOp, checkin, hscan, hc]
        rw [happ]
        exact hact
  | checkout f' v t =>
    cases v with
    | none =>
      by_cases hcnt : getCount db f' ≤ 0
      · rw [show applyOp db (.checkout f' none t) = (checkoutApply db f' none t).2 from rfl,
          checkoutApply_empty db f' none t hcnt]
        exact hact
      · rw [show applyOp db (.checkout f' none t) = (checkoutApply db f' none t).2 from rfl,
          activeIn_congr (active_checkoutApply_none db f' t)]
        exact hact
    | some v =>
      by_cases hvu : v = u
      · subst hvu
        have hscan := scan_of_activeIn db hInv f v hact
        by_cases hf : f ≠ f'
        · have happ : applyOp db (.checkout f' (some v) t) = db := by
            simp [applyOp, checkout, hscan, hf]
          rw [happ]
          exact hact
        · simp only [not_not] at hf
          subst hf
          by_cases hcnt : getCount db f ≤ 0
          · have happ : applyOp db (.checkout f (some v) t) = db := by
              simp [applyOp, checkout, hscan, checkoutApply_empty db f (some v) t hcnt]
            rw [happ]
            exact hact
          · exfalso
            apply hnr
            refine ⟨rfl, rfl, getCount db f - 1, ?_⟩
            have hred : checkout db f (some v) t = checkoutApply db f (some v) t := by
              simp [checkout, hscan]
            rw [hred]
            exact fst_checkoutApply_success db f (some v) t hcnt
      · cases hscan : (is_user_checked_in db v).2 with
        | none =>
          have happ : applyOp db (.checkout f' (some v) t) = db := by
            simp [applyOp, checkout, hscan]
          rw [happ]
          exact hact
        | some cur =>
          by_cases hc : cur ≠ f'
          · have happ : applyOp db (.checkout f' (some v) t) = db := by
              simp [applyOp, checkout, hscan, hc]
            rw [happ]
            exact hact
          · simp only [not_not] at hc
            subst hc
            have happ : applyOp db (.checkout cur (some v) t)
                = (checkoutApply db cur (some v) t).2 := by
              simp [applyOp, checkout, hscan]
            by_cases hcnt : getCount db cur ≤ 0
            · rw [happ, checkoutApply_empty db cur (some v) t hcnt]
              exact hact
            · rw [happ, activeIn_checkoutApply_some db cur v t hcnt f u]
              by_cases hf : f = cur
              · rw [if_pos hf, if_neg (Ne.symm hvu), ← hf]
                exact hact
              · rw [if_neg hf]
                exact hact
  | reset f' a t => cases hcc

theorem run_preserve (f u : String) (ops : List Op) : ∀ (db : DB), Inv db →
    activeIn db f u = true → (∀ op ∈ ops, IsCheckinCheckout op) → NoRelease f u db ops →
    Inv (run db ops) ∧ activeIn (run db ops) f u = true := by
  induction ops with
  | nil => exact fun db h1 h2 _ _ => ⟨h1, h2⟩
  | cons op rest ih =>
    intro db hInv hact hcc hnr
    rw [show run db (op :: rest) = run (applyOp db op) rest from rfl]
    exact ih (applyOp db op) (Inv_applyOp db op hInv)
      (activeIn_preserved db op f u hInv hact (hcc op (List.mem_cons_self _ _)) hnr.1)
      (fun o ho => hcc o (List.mem_cons_of_mem _ ho)) hnr.2

theorem checkin_success_post (db : DB) (fid u : String) (uname : Option String) (now : Nat)
    (c : Int) (db1 : DB) (hInv : Inv db)
    (h : checkin db fid (some u) uname now = (.ok c, db1)) :
    Inv db1 ∧ activeIn db1 fid u = true := by
  cases hscan : (is_user_checked_in db u).2 with
  | some cur =>
    simp only [checkin, hscan] at h
    by_cases hc : cur = fid <;> simp [hc] at h
  | none =>
    simp only [checkin, hscan] at h
    have hdb1 : db1 = (checkinApply db fid (some u) uname now).2 := by
      rw [h]
    constructor
    · rw [hdb1]
      exact Inv_checkinApply_some db hInv fid u uname now (scan_none_not_active db u hscan)
    · rw [hdb1, activeIn_checkinApply_some db fid u uname now fid u]
      simp

theorem checkin_rejected (db : DB) (hInv : Inv db) (f u : String)
    (hact : activeIn db f u = true) (f2 : String) (uname : Option String) (now : Nat) :
    checkin db f2 (some u) uname now =
      (.error (if f2 = f then .alreadyCheckedInHere else .alreadyCheckedInElsewhere f), db) := by
  have hscan := scan_of_activeIn db hInv f u hact
  by_cases hc : f = f2
  · subst hc
    simp [checkin, hscan]
  · simp only [checkin, hscan]
    rw [if_neg hc, if_neg (fun h2 => hc h2.symm)]

theorem nonneg_applyOp (db : DB) (op : Op) (h : ∀ g, 0 ≤ getCount db g) (g : String) :
    0 ≤ getCount (applyOp db op) g := by
  cases op with
  | checkin f u un t =>
    have happly : 0 ≤ getCount (checkinApply db f u un t).2 g := by
      rw [getCount_of_queues_setA db f _ _ (queues_checkinApply db f u un t) g]
      by_cases hg : g = f
      · simp only [if_pos hg]
        have := h f
        omega
      · simp only [if_neg hg]
        exact h g
    cases u with
    | none => exact happly
    | some v =>
      cases hscan : (is_user_checked_in db v).2 with
      | none =>
        have happ : applyOp db (.checkin f (some v) un t)
            = (checkinApply db f (some v) un t).2 := by
          simp [applyOp, checkin, hscan]
        rw [happ]
        exact happly
      | some cur =>
        have happ : applyOp db (.checkin f (some v) un t) = db := by
          by_cases hc : cur = f <;> simp [applyOp, checkin, hscan, hc]
        rw [happ]
        exact h g
  | checkout f u t =>
    have happly : 0 ≤ getCount (checkoutApply db f u t).2 g := by
      by_cases hcnt : getCount db f ≤ 0
      · rw [checkoutApply_empty db f u t hcnt]
        exact h g
      · rw [getCount_of_queues_setA db f _ _ (queues_checkoutApply_success db f u t hcnt) g]
        by_cases hg : g = f
        · simp only [if_pos hg]
          omega
        · simp only [if_neg hg]
          exact h g
    cases u with
    | none => exact happly
    | some v =>
      cases hscan : (is_user_checked_in db v).2 with
      | none =>
        have happ : applyOp db (.checkout f (some v) t) = db := by
          simp [applyOp, checkout, hscan]
        rw [happ]
        exact h g
      | some cur =>
        by_cases hc : cur ≠ f
        · have happ : applyOp db (.checkout f (some v) t) = db := by
            simp [applyOp, checkout, hscan, hc]
          rw [happ]
          exact h g
        · have happ : applyOp db (.checkout f (some v) t)
              = (checkoutApply db f (some v) t).2 := by
            simp [applyOp, checkout, hscan, hc]
          rw [happ]
          exact happly
  | reset f a t =>
    rw [show applyOp db (.reset f a t) = reset_queue db f a t from rfl]
    rw [getCount_of_queues_setA db f _ _ (queues_reset db f a t) g]
    by_cases hg : g = f
    · simp [hg]
    · simp only [if_neg hg]
      exact h g

theorem nonneg_run (db : DB) (ops : List Op) (h : ∀ g, 0 ≤ getCount db g) (g : String) :
    0 ≤ getCount (run db ops) g := by
  induction ops generalizing db with
  | nil => exact h g
  | cons op rest ih =>
    rw [show run db (op :: rest) = run (applyOp db op) rest from rfl]
    exact ih (applyOp db op) (fun g2 => nonneg_applyOp db op h g2)

/-! ### Supporting lemmas: status bucketing -/

theorem get_status_spec (c cap : Int) (occ : ℚ)
    (hocc : occ = if cap > 0 then (c : ℚ) / (cap : ℚ) * 100 else 0) :
    ((get_status c cap).text = "Low" ↔ occ < 40) ∧
    ((get_status c cap).text = "Moderate" ↔ 40 ≤ occ ∧ occ < 70) ∧
    ((get_status c cap).text = "High" ↔ 70 ≤ occ) := by
  by_cases h1 : occ < 40
  · have hgs : get_status c cap = ⟨"low", "🟢", "Low", "#28a745"⟩ := by
      rw [get_status, ← hocc, if_pos h1]
    rw [hgs]
    refine ⟨⟨fun _ => h1, fun _ => rfl⟩, ⟨fun hM => absurd hM (by decide), fun hh => ?_⟩,
      ⟨fun hH => absurd hH (by decide), fun hh => ?_⟩⟩
    · exact absurd h1 (by linarith [hh.1])
    · exact absurd h1 (by linarith)
  · by_cases h2 : occ < 70
    · have hgs : get_status c cap = ⟨"moderate", "🟡", "Moderate", "#ffc107"⟩ := by
        rw [get_status, ← hocc, if_neg h1, if_pos h2]
      rw [hgs]
      refine ⟨⟨fun hL => absurd hL (by decide), fun hh => absurd h1 (by linarith)⟩,
        ⟨fun _ => ⟨le_of_not_lt h1, h2⟩, fun _ => rfl⟩,
        ⟨fun hH => absurd hH (by decide), fun hh => absurd h2 (by linarith)⟩⟩
    · have hgs : get_status c cap = ⟨"high", "🔴", "High", "#dc3545"⟩ := by
        rw [get_status, ← hocc, if_neg h1, if_neg h2]
      rw [hgs]
      refine ⟨⟨fun hL => absurd hL (by decide), fun hh => absurd h2 (by linarith)⟩,
        ⟨fun hM => absurd hM (by decide), fun hh => absurd h2 (by linarith [hh.2])⟩,
        ⟨fun _ => le_of_not_lt h2, fun _ => rfl⟩⟩

/-! ### Claim C3 — per-user mutual exclusion of check-ins -/

/-- C3: (1) at every state reachable from the empty store by any sequence
of checkin/checkout/reset operations, the single-active-checkin invariant
holds: a user identifier is recorded in the active-checkin set of at most
one facility; (2) after a successful `checkin(f, some u)` from any
invariant-satisfying state, as long as no subsequent checkin/checkout
operation is a successful `checkout(f, some u)`, every further
`checkin(f2, some u)` fails — with AlreadyCheckedInHere when `f2 = f` and
AlreadyCheckedInElsewhere when `f2 ≠ f` — leaving the state unchanged. -/
theorem C3_per_user_mutex :
    (∀ ops : List Op, Inv (run DB.empty ops)) ∧
    (∀ db f u uname now c db1, Inv db →
      checkin db f (some u) uname now = (.ok c, db1) →
      ∀ mid, (∀ op ∈ mid, IsCheckinCheckout op) → NoRelease f u db1 mid →
        ∀ f2 uname2 now2,
          checkin (run db1 mid) f2 (some u) uname2 now2 =
            (.error (if f2 = f then .alreadyCheckedInHere
                     else .alreadyCheckedInElsewhere f), run db1 mid)) := by
  constructor
  · have haux : ∀ (ops : List Op) (db : DB), Inv db → Inv (run db ops) := by
      intro ops
      induction ops with
      | nil => exact fun db h => h
      | cons op rest ih => exact fun db h => ih (applyOp db op) (Inv_applyOp db op h)
    exact fun ops => haux ops DB.empty Inv_empty
  · intro db f u uname now c db1 hInv hok mid hcc hnr f2 uname2 now2
    obtain ⟨hInv1, hact1⟩ := checkin_success_post db f u uname now c db1 hInv hok
    obtain ⟨hInv2, hact2⟩ := run_preserve f u mid db1 hInv1 hact1 hcc hnr
    exact checkin_rejected (run db1 mid) hInv2 f u hact2 f2 uname2 now2

/-- C3 witness: user `u` checks in to facility `f`; an anonymous checkout
on `f` (which empties the counter but does not release `u`) intervenes;
`checkin("g", u)` is then still rejected with AlreadyCheckedInElsewhere. -/
theorem C3_per_user_mutex_witness :
    checkin (run (checkin DB.empty "f" (some "u") none 0).2 [.checkout "f" none 1])
        "g" (some "u") none 2
      = (.error (.alreadyCheckedInElsewhere "f"),
         run (checkin DB.empty "f" (some "u") none 0).2 [.checkout "f" none 1]) := by
  have h := (C3_per_user_mutex.2 DB.empty "f" "u" none 0 1
      (checkin DB.empty "f" (some "u") none 0).2 Inv_empty (by decide)
      [.checkout "f" none 1] (by simp [IsCheckinCheckout])
      (by simp [NoRelease, ReleasesAt])) "g" none 2
  rw [if_neg (by decide)] at h
  exact h

/-! ### Claim C4 — count non-negativity -/

/-- C4: starting from the initial zero state, after every sequence of
checkin/checkout/reset operations every facility's queue count is ≥ 0;
checkout on a facility whose count is 0 fails QueueAlreadyEmpty leaving the
whole state (in particular the count) unchanged; and reset sets the count
to exactly 0. -/
theorem C4_count_nonneg :
    (∀ ops : List Op, ∀ fid, 0 ≤ getCount (run DB.empty ops) fid) ∧
    (∀ db fid now, getCount db fid = 0 →
      checkout db fid none now = (.error .queueAlreadyEmpty, db)) ∧
    (∀ db fid a now, getCount (reset_queue db fid a now) fid = 0) := by
  refine ⟨?_, ?_, ?_⟩
  · intro ops fid
    exact nonneg_run DB.empty ops (fun g => by simp [getCount, DB.empty, lookupA]) fid
  · intro db fid now h
    exact checkoutApply_empty db fid none now (by omega)
  · intro db fid a now
    rw [getCount_of_queues_setA db fid 0 (some now) (queues_reset db fid a now) fid]
    simp

/-- C4 witness: checkout on the empty store fails QueueAlreadyEmpty without
mutating anything, and reset pins the count to 0. -/
theorem C4_count_nonneg_witness :
    checkout DB.empty "f" none 5 = (.error .queueAlreadyEmpty, DB.empty) ∧
    getCount (reset_queue DB.empty "f" "admin" 5) "f" = 0 :=
  ⟨C4_count_nonneg.2.1 DB.empty "f" 5 (by decide),
   C4_count_nonneg.2.2 DB.empty "f" "admin" 5⟩

/-! ### Claim C8 — atomicity on error -/

/-- C8: whenever `checkin` or `checkout` returns an error result, the
entire tracked state — queue counts and stamps, active-checkin records, and
the history log — is exactly the state before the call; every error is
raised before any mutation. -/
theorem C8_atomic_on_error :
    (∀ db fid uid uname now e db',
      checkin db fid uid uname now = (.error e, db') → db' = db) ∧
    (∀ db fid uid now e db',
      checkout db fid uid now = (.error e, db') → db' = db) := by
  constructor
  · intro db fid uid uname now e db' h
    cases uid with
    | none => simp [checkin, checkinApply] at h
    | some u =>
      cases hscan : (is_user_checked_in db u).2 with
      | none => simp [checkin, hscan, checkinApply] at h
      | some cur =>
        by_cases hc : cur = fid
        · simp [checkin, hscan, hc] at h
          exact h.2.symm
        · simp [checkin, hscan, hc] at h
          exact h.2.symm
  · intro db fid uid now e db' h
    have happly : ∀ v, checkoutApply db fid v now = (.error e, db') → db' = db := by
      intro v hv
      by_cases hcnt : getCount db fid ≤ 0
      · simp [checkoutApply, hcnt] at hv
        exact hv.2.symm
      · simp [checkoutApply, hcnt] at hv
    cases uid with
    | none => exact happly none (by simpa [checkout] using h)
    | some u =>
      cases hscan : (is_user_checked_in db u).2 with
      | none =>
        simp [checkout, hscan] at h
        exact h.2.symm
      | some cur =>
        by_cases hc : cur ≠ fid
        · simp [checkout, hscan, hc] at h
          exact h.2.symm
        · simp only [not_not] at hc
          exact happly (some u) (by simpa [checkout, hscan, hc] using h)

/-- C8 witness: the duplicate check-in error and the empty-queue checkout
error both leave the store exactly as it was. -/
theorem C8_atomic_on_error_witness :
    (checkin (checkin DB.empty "f" (some "u") none 0).2 "f" (some "u") none 1).2
      = (checkin DB.empty "f" (some "u") none 0).2 ∧
    (checkout DB.empty "g" none 0).2 = DB.empty := by
  constructor
  · exact C8_atomic_on_error.1 (checkin DB.empty "f" (some "u") none 0).2 "f" (some "u")
      none 1 .alreadyCheckedInHere _ (by decide)
  · exact C8_atomic_on_error.2 DB.empty "g" none 0 .queueAlreadyEmpty _ (by decide)

/-! ### Claim C9 — facility statistics -/

/-- C9: for an existing facility, `get_facility_stats` returns the current
count, occupancyPct = count/capacity×100 (0 when capacity ≤ 0),
waitMinutes = count × avgTimePerPerson, and a status bucketed Low /
Moderate / High exactly at the 40% and 70% thresholds; for a non-existent
facility it returns none. -/
theorem C9_facility_stats (db : DB) (facilities : Facilities) (fid : String) :
    (get_facility_stats db facilities fid = none ↔ lookupA fid facilities = none) ∧
    (∀ fac, lookupA fid facilities = some fac →
      ∃ s, get_facility_stats db facilities fid = some s ∧
        s.current_count = getCount db fid ∧
        s.capacity = fac.capacity ∧
        s.occupancy_percentage =
          (if fac.capacity > 0 then (getCount db fid : ℚ) / (fac.capacity : ℚ) * 100 else 0) ∧
        s.wait_time = getCount db fid * fac.avg_time_per_person ∧
        (s.status.text = "Low" ↔ s.occupancy_percentage < 40) ∧
        (s.status.text = "Moderate" ↔ 40 ≤ s.occupancy_percentage ∧
          s.occupancy_percentage < 70) ∧
        (s.status.text = "High" ↔ 70 ≤ s.occupancy_percentage)) := by
  constructor
  · cases h : lookupA fid facilities <;> simp [get_facility_stats, h]
  · intro fac hfac
    refine ⟨⟨getCount db fid, fac.capacity,
        if fac.capacity > 0 then (getCount db fid : ℚ) / (fac.capacity : ℚ) * 100 else 0,
        getCount db fid * fac.avg_time_per_person,
        get_status (getCount db fid) fac.capacity,
        (lookupA fid db.queues).bind QueueRec.last_updated⟩,
      by simp [get_facility_stats, hfac, getCount], rfl, rfl, rfl, rfl, ?_, ?_, ?_⟩
    · exact (get_status_spec _ _ _ rfl).1
    · exact (get_status_spec _ _ _ rfl).2.1
    · exact (get_status_spec _ _ _ rfl).2.2

/-- C9 witness: the spec scenario — capacity 50, avgTime 3, 20 check-ins —
reports occupancyPct 40, waitMinutes 60, status Moderate. -/
theorem C9_facility_stats_witness :
    ∃ s, get_facility_stats
        (run DB.empty (List.replicate 20 (Op.checkin "cafeteria" none none 0)))
        [("cafeteria", ⟨"Cafeteria", 50, "C", 3, 8, 22, "", true⟩)] "cafeteria" = some s ∧
      s.occupancy_percentage = 40 ∧ s.wait_time = 60 ∧ s.status.text = "Moderate" := by
  obtain ⟨s, hs, hcc, hcap, hocc, hwait, hlow, hmod, hhigh⟩ :=
    (C9_facility_stats (run DB.empty (List.replicate 20 (Op.checkin "cafeteria" none none 0)))
      [("cafeteria", ⟨"Cafeteria", 50, "C", 3, 8, 22, "", true⟩)] "cafeteria").2
      ⟨"Cafeteria", 50, "C", 3, 8, 22, "", true⟩ (by decide)
  have hcount : getCount
      (run DB.empty (List.replicate 20 (Op.checkin "cafeteria" none none 0))) "cafeteria"
      = 20 := by decide
  rw [hcount] at hocc hwait
  have hocc40 : s.occupancy_percentage = 40 := by
    rw [hocc]
    norm_num
  refine ⟨s, hs, hocc40, by rw [hwait]; norm_num, hmod.mpr ⟨?_, ?_⟩⟩
  · rw [hocc40]
  · rw [hocc40]
    norm_num

/-! ### Claim C10 — anonymous calls skip the per-user machinery -/

/-- C10: a `checkin` with no user identifier always succeeds — the
single-active-checkin check is skipped — incrementing the count and
appending a history entry with no user fields, while the active-checkin
records are untouched; a `checkout` with no user identifier is guarded only
by count > 0 and never verifies or removes an active-checkin record. -/
theorem C10_anonymous_calls (db : DB) (fid : String) (uname : Option String) (now : Nat) :
    ((checkin db fid none uname now).1 = .ok (getCount db fid + 1) ∧
      (checkin db fid none uname now).2.active_queues = db.active_queues ∧
      getCount (checkin db fid none uname now).2 fid = getCount db fid + 1 ∧
      (lookupA fid (checkin db fid none uname now).2.history).getD [] =
        (lookupA fid db.history).getD [] ++
          [{ action := .checkin, count := getCount db fid + 1, timestamp := now,
             user_id := none, user_name := none, admin_id := none }]) ∧
    (0 < getCount db fid →
      (checkout db fid none now).1 = .ok (getCount db fid - 1) ∧
      (checkout db fid none now).2.active_queues = db.active_queues ∧
      getCount (checkout db fid none now).2 fid = getCount db fid - 1) ∧
    (getCount db fid ≤ 0 → checkout db fid none now = (.error .queueAlreadyEmpty, db)) := by
  refine ⟨⟨?_, ?_, ?_, ?_⟩, fun hpos => ⟨?_, ?_, ?_⟩, fun hle => ?_⟩
  · exact fst_checkinApply db fid none uname now
  · exact active_checkinApply_none db fid uname now
  · rw [show checkin db fid none uname now = checkinApply db fid none uname now from rfl]
    rw [getCount_of_queues_setA db fid _ _ (queues_checkinApply db fid none uname now) fid]
    simp
  · rw [show checkin db fid none uname now = checkinApply db fid none uname now from rfl]
    rw [history_checkinApply_none db fid uname now, lookupA_setA_self]
    simp
  · exact fst_checkoutApply_success db fid none now (by omega)
  · exact active_checkoutApply_none db fid now
  · rw [show checkout db fid none now = checkoutApply db fid none now from rfl]
    rw [getCount_of_queues_setA db fid _ _
      (queues_checkoutApply_success db fid none now (by omega)) fid]
    simp
  · exact checkoutApply_empty db fid none now hle

/-- C10 witness: in a store where user `u` is actively checked in at `f`,
an anonymous checkin on `f` still succeeds (the per-user check is skipped)
and leaves the active-checkin records untouched. -/
theorem C10_anonymous_calls_witness :
    ((checkin (checkin DB.empty "f" (some "u") none 0).2 "f" none none 1).1 = .ok 2 ∧
      (checkin (checkin DB.empty "f" (some "u") none 0).2 "f" none none 1).2.active_queues
        = (checkin DB.empty "f" (some "u") none 0).2.active_queues) ∧
    checkout DB.empty "h" none 1 = (.error .queueAlreadyEmpty, DB.empty) := by
  have h := C10_anonymous_calls (checkin DB.empty "f" (some "u") none 0).2 "f" none 1
  refine ⟨⟨?_, h.1.2.1⟩, ?_⟩
  · have h1 := h.1.1
    rwa [show getCount (checkin DB.empty "f" (some "u") none 0).2 "f" + 1 = 2 by decide] at h1
  · exact (C10_anonymous_calls DB.empty "h" none 1).2.2 (by decide)

end QLess
